import Mathlib

/-!
Verification of pytorch_lightning/metrics/converters.py: value conversion
between scalars, numpy arrays and torch tensors, collection traversal, and
DDP synchronization of metric outputs.

Numeric buffers are modelled as lists of rationals; a torch tensor carries
optional dtype/device metadata (none = inherited/default).  Python values
(leaves plus nested containers) are the mutual inductives PyVal / PyList /
PyDict.  Fallible conversions return Except ConvErr.
-/

/-- Numeric buffer of a tensor or array: a flat list of rationals. -/
abbrev Tensor := List ℚ

/-- Opaque handle for a torch process group. -/
abbrev GroupH := Nat

/-- Conversion failure (the TypeError raised by convert_to_tensor /
convert_to_numpy, called UnsupportedConversion in the design). -/
inductive ConvErr where
  | unsupportedConversion
deriving DecidableEq

/-- Runtime kind of a Python value, used for isinstance-style dispatch. -/
inductive Kind where
  | scalarK | arrayK | tensorK | strK | noneK | listK | tupleK | setK | dictK
deriving DecidableEq

mutual
/-- Python value: a leaf (number, numpy array, torch tensor), a string,
None, or a nested container.  An ndarray carries the flag objDtype, true
iff its element dtype matches np_str_obj_array_pattern (str/object dtype).
A tensor carries optional dtype/device metadata (none = default). -/
inductive PyVal where
  | scalar (q : ℚ)
  | array (buf : List ℚ) (objDtype : Bool)
  | tensor (buf : List ℚ) (dtype : Option Nat) (device : Option Nat)
  | strV (s : String)
  | noneV
  | listV (xs : PyList)
  | tupleV (xs : PyList)
  | setV (xs : PyList)
  | dictV (kvs : PyDict)
deriving DecidableEq
/-- List of Python values (models both Python lists and tuples). -/
inductive PyList where
  | nil
  | cons (x : PyVal) (xs : PyList)
deriving DecidableEq
/-- String-keyed mapping of Python values (models Python dicts, e.g. kwargs). -/
inductive PyDict where
  | nil
  | cons (k : String) (v : PyVal) (rest : PyDict)
deriving DecidableEq
end

deriving instance DecidableEq for Except

/-- Runtime kind of a value. -/
def PyVal.kind : PyVal → Kind
  | .scalar _ => .scalarK
  | .array _ _ => .arrayK
  | .tensor _ _ _ => .tensorK
  | .strV _ => .strK
  | .noneV => .noneK
  | .listV _ => .listK
  | .tupleV _ => .tupleK
  | .setV _ => .setK
  | .dictV _ => .dictK

/-- Length of a PyList. -/
def plen : PyList → Nat
  | .nil => 0
  | .cons _ xs => plen xs + 1

/-- Keys of a PyDict, in order. -/
def keysOf : PyDict → List String
  | .nil => []
  | .cons k _ rest => k :: keysOf rest

mutual
/-- Modelled from the spec: `apply_to_collection` of
pytorch_lightning/utilities/apply_func.py is imported by converters.py but
its source is not part of this repository snapshot; this follows spec
section 4.1 (CollectionMapper): if the value's runtime kind is in the leaf
set apply the leaf function, otherwise recurse through mappings, non-string
sequences/tuples and sets rebuilding the same container kind, and pass any
other value through unchanged. -/
def apply_to_collection (ks : List Kind) (f : PyVal → Except ConvErr PyVal) :
    PyVal → Except ConvErr PyVal
  | .dictV kvs =>
    if Kind.dictK ∈ ks then f (.dictV kvs)
    else
      match applyToDict ks f kvs with
      | .ok kvs2 => .ok (.dictV kvs2)
      | .error e => .error e
  | .listV xs =>
    if Kind.listK ∈ ks then f (.listV xs)
    else
      match applyToList ks f xs with
      | .ok ys => .ok (.listV ys)
      | .error e => .error e
  | .tupleV xs =>
    if Kind.tupleK ∈ ks then f (.tupleV xs)
    else
      match applyToList ks f xs with
      | .ok ys => .ok (.tupleV ys)
      | .error e => .error e
  | .setV xs =>
    if Kind.setK ∈ ks then f (.setV xs)
    else
      match applyToList ks f xs with
      | .ok ys => .ok (.setV ys)
      | .error e => .error e
  | v =>
    if v.kind ∈ ks then f v else .ok v
/-- Elementwise traversal of a sequence by apply_to_collection, order kept. -/
def applyToList (ks : List Kind) (f : PyVal → Except ConvErr PyVal) :
    PyList → Except ConvErr PyList
  | .nil => .ok .nil
  | .cons x xs =>
    match apply_to_collection ks f x, applyToList ks f xs with
    | .ok y, .ok ys => .ok (.cons y ys)
    | .error e, _ => .error e
    | _, .error e => .error e
/-- Value-wise traversal of a mapping by apply_to_collection, keys kept. -/
def applyToDict (ks : List Kind) (f : PyVal → Except ConvErr PyVal) :
    PyDict → Except ConvErr PyDict
  | .nil => .ok .nil
  | .cons k v rest =>
    match apply_to_collection ks f v, applyToDict ks f rest with
    | .ok w, .ok rest2 => .ok (.cons k w rest2)
    | .error e, _ => .error e
    | _, .error e => .error e
end

/-- Leaf-type set (torch.Tensor, np.ndarray, numbers.Number) passed to
apply_to_collection throughout converters.py. -/
def leafTypes : List Kind := [.tensorK, .arrayK, .scalarK]

/-- Container kinds (the recursive cases of apply_to_collection). -/
def containerKinds : List Kind := [.listK, .tupleK, .setK, .dictK]

/-- Metadata update of tensor.to(dtype=new) / tensor.to(device=new):
a given value overrides, None keeps the old one. -/
def castMeta (new old : Option Nat) : Option Nat :=
  match new with
  | some x => some x
  | none => old

/-- Models convert_to_tensor (converters.py lines 89-109): a number becomes
a one-element tensor, a non-object-dtype ndarray becomes a tensor from its
buffer cast by .to(device, dtype), a tensor is re-cast by .to(device, dtype),
and anything else (including an object-dtype ndarray) raises. -/
def convert_to_tensor (data : PyVal) (dtype device : Option Nat) :
    Except ConvErr PyVal :=
  match data with
  | .scalar q => .ok (.tensor [q] dtype device)
  | .array buf objDtype =>
    if objDtype = false then .ok (.tensor buf dtype device)
    else .error .unsupportedConversion
  | .tensor buf d dev => .ok (.tensor buf (castMeta dtype d) (castMeta device dev))
  | _ => .error .unsupportedConversion

/-- convert_to_tensor with the default dtype=None, device=None, as invoked
by the decorators in converters.py. -/
def convTensorDefault (x : PyVal) : Except ConvErr PyVal :=
  convert_to_tensor x none none

/-- Models convert_to_numpy (converters.py lines 112-128): a tensor is
detached and copied to host as an ndarray of its (numeric, hence
non-object) dtype, a number becomes a one-element ndarray, an ndarray is
returned as is, and anything else raises. -/
def convert_to_numpy (data : PyVal) : Except ConvErr PyVal :=
  match data with
  | .tensor buf _ _ => .ok (.array buf false)
  | .scalar q => .ok (.array [q] false)
  | .array buf objDtype => .ok (.array buf objDtype)
  | _ => .error .unsupportedConversion

/-- Reduction-op argument of sync_ddp_if_available: torch ReduceOp.SUM or
one of the strings avg / mean accepted by the code. -/
inductive ROp where
  | SUM | avg | mean
deriving DecidableEq

/-- External collective-communication capability (spec section 6): probes
torch.distributed.is_available / is_initialized, the WORLD group handle,
get_world_size, all_reduce with ReduceOp.SUM (every peer receives the
elementwise sum of all contributions), and all_gather (every peer receives
the per-peer list of contributions). -/
structure DistEnv where
  available : Bool
  inited : Bool
  world : GroupH
  size : GroupH → Nat
  allReduceSum : GroupH → Tensor → Tensor
  allGather : GroupH → Tensor → List Tensor

/-- Models sync_ddp_if_available (converters.py lines 243-280) for one
process: if torch.distributed is available and initialized, default the
group to WORLD, read the op (None defaults to SUM; the strings avg / mean
select SUM plus division by the group's world size), all_reduce, and divide
if requested; otherwise return the input unchanged. -/
def sync_ddp_if_available (env : DistEnv) (result : Tensor)
    (group : Option GroupH) (reduce_op : Option ROp) : Tensor :=
  if env.available && env.inited then
    let g := group.getD env.world
    let divide_by_world_size : Bool :=
      match reduce_op with
      | some .avg => true
      | some .mean => true
      | _ => false
    let reduced := env.allReduceSum g result
    if divide_by_world_size then reduced.map (fun q => q / ((env.size g : ℚ)))
    else reduced
  else result

/-- Result of gather_all_tensors_if_available: the unchanged input tensor
(inactive path) or the gathered per-peer list (active path). -/
inductive GatherOut where
  | single (t : Tensor)
  | gathered (ts : List Tensor)
deriving DecidableEq

/-- Models gather_all_tensors_if_available (converters.py lines 283-312)
for one process: if torch.distributed is available and initialized, default
the group to WORLD and all_gather the per-peer tensors; otherwise return
the input unchanged. -/
def gather_all_tensors_if_available (env : DistEnv) (result : Tensor)
    (group : Option GroupH) : GatherOut :=
  if env.available && env.inited then
    let g := group.getD env.world
    .gathered (env.allGather g result)
  else .single result

/-- Elementwise addition of two buffers of equal shape. -/
def addT (a b : Tensor) : Tensor := List.zipWith (fun x y => x + y) a b

/-- Elementwise sum of the per-peer buffers, as delivered by all_reduce
with ReduceOp.SUM. -/
def sumT : List Tensor → Tensor
  | [] => []
  | t :: ts => ts.foldl addT t

/-- Capability instance for one collective call in which the peers of the
addressed group contribute exactly the tensors in contribs (peer i
contributes contribs[i]); follows the spec section 6 contract of
all_reduce(SUM) and all_gather. -/
def groupEnv (avail inited : Bool) (contribs : List Tensor) : DistEnv where
  available := avail
  inited := inited
  world := 0
  size := fun _ => contribs.length
  allReduceSum := fun _ _ => sumT contribs
  allGather := fun _ _ => contribs

/-- Whole-group view of one sync_ddp_if_available call: every peer i of the
group runs the function on its own contribution, against the capability
carrying all contributions; returns the per-peer results. -/
def sync_ddp_group (avail inited : Bool) (contribs : List Tensor)
    (group : Option GroupH) (op : Option ROp) : List Tensor :=
  contribs.map (fun t => sync_ddp_if_available (groupEnv avail inited contribs) t group op)

/-- The probe performed inline by sync_ddp_if_available and
gather_all_tensors_if_available on every call:
torch.distributed.is_available() and torch.distributed.is_initialized(). -/
def ddp_probe (avail inited : Bool) : Bool := avail && inited

/-- One collective call of a process's lifetime: the probe outcome at that
moment, the per-peer contributions, and the group / op arguments. -/
structure SyncCall where
  avail : Bool
  inited : Bool
  contribs : List Tensor
  group : Option GroupH
  op : Option ROp

/-- Trace of successive sync_ddp_if_available calls in one process's
lifetime.  The functions in converters.py keep no state between calls, so
each call's result is a function of that call's own probe and arguments. -/
def syncTrace (calls : List SyncCall) : List (List Tensor) :=
  calls.map (fun c => sync_ddp_group c.avail c.inited c.contribs c.group c.op)

/-- Leaf function installed by the sync_ddp decorator: apply
sync_ddp_if_available to the buffer of a tensor leaf (the only leaf kind in
its leaf set). -/
def sync_leaf (env : DistEnv) (g : Option GroupH) (op : Option ROp) : PyVal → PyVal
  | .tensor buf d dev => .tensor (sync_ddp_if_available env buf g op) d dev
  | v => v

/-- Models _apply_to_inputs (converters.py lines 40-62) applied to a
conversion stage: the stage runs once on the positional-argument tuple and
once, separately, on the keyword-argument dict, then the wrapped function
is called on the converted arguments. -/
def apply_to_inputs_fn (stage : PyVal → Except ConvErr PyVal)
    (f : PyList → PyDict → PyVal) (args : PyList) (kwargs : PyDict) :
    Except ConvErr PyVal :=
  match stage (.tupleV args), stage (.dictV kwargs) with
  | .ok (.tupleV a), .ok (.dictV k) => .ok (f a k)
  | .error e, _ => .error e
  | _, .error e => .error e
  | _, _ => .error .unsupportedConversion

/-- Models _apply_to_outputs (converters.py lines 65-86): run the wrapped
function, then run the stage once on its entire return value. -/
def apply_to_outputs_fn (stage : PyVal → Except ConvErr PyVal)
    (g : PyList → PyDict → Except ConvErr PyVal) (args : PyList) (kwargs : PyDict) :
    Except ConvErr PyVal :=
  match g args kwargs with
  | .ok r => stage r
  | .error e => .error e

/-- Models _numpy_metric_input_conversion: all inputs to numpy. -/
def numpy_metric_input_conversion_fn (f : PyList → PyDict → PyVal) :=
  apply_to_inputs_fn (apply_to_collection leafTypes convert_to_numpy) f

/-- Models _tensor_metric_input_conversion: all inputs to tensors. -/
def tensor_metric_input_conversion_fn (f : PyList → PyDict → PyVal) :=
  apply_to_inputs_fn (apply_to_collection leafTypes convTensorDefault) f

/-- Models _tensor_metric_output_conversion (converters.py lines 145-155):
convert_to_tensor applied DIRECTLY to the whole return value, with no
apply_to_collection traversal. -/
def tensor_metric_output_conversion_fn (g : PyList → PyDict → Except ConvErr PyVal) :=
  apply_to_outputs_fn convTensorDefault g

/-- Models _tensor_collection_metric_output_conversion (converters.py lines
192-203): apply_to_collection with the standard leaf set and
convert_to_tensor over the whole return value. -/
def tensor_collection_metric_output_conversion_fn
    (g : PyList → PyDict → Except ConvErr PyVal) :=
  apply_to_outputs_fn (apply_to_collection leafTypes convTensorDefault) g

/-- Models _numpy_metric_conversion: numpy inputs, direct tensor output. -/
def numpy_metric_conversion_fn (f : PyList → PyDict → PyVal) :=
  tensor_metric_output_conversion_fn (numpy_metric_input_conversion_fn f)

/-- Models _tensor_metric_conversion: tensor inputs, direct tensor output. -/
def tensor_metric_conversion_fn (f : PyList → PyDict → PyVal) :=
  tensor_metric_output_conversion_fn (tensor_metric_input_conversion_fn f)

/-- Models _tensor_collection_metric_conversion: tensor inputs, collection
traversal at the output. -/
def tensor_collection_metric_conversion_fn (f : PyList → PyDict → PyVal) :=
  tensor_collection_metric_output_conversion_fn (tensor_metric_input_conversion_fn f)

/-- Models the sync_ddp decorator (converters.py lines 315-334):
apply_to_collection with leaf set {torch.Tensor} and leaf function
sync_ddp_if_available over the wrapped function's return value. -/
def sync_ddp_fn (env : DistEnv) (g : Option GroupH) (op : Option ROp)
    (h : PyList → PyDict → Except ConvErr PyVal) :=
  apply_to_outputs_fn
    (apply_to_collection [Kind.tensorK] (fun t => .ok (sync_leaf env g op t))) h

/-- Models the numpy_metric decorator: conversion then DDP sync. -/
def numpy_metric_fn (env : DistEnv) (g : Option GroupH) (op : Option ROp)
    (f : PyList → PyDict → PyVal) :=
  sync_ddp_fn env g op (numpy_metric_conversion_fn f)

/-- Models the tensor_metric decorator: conversion then DDP sync. -/
def tensor_metric_fn (env : DistEnv) (g : Option GroupH) (op : Option ROp)
    (f : PyList → PyDict → PyVal) :=
  sync_ddp_fn env g op (tensor_metric_conversion_fn f)

/-- Models the tensor_collection_metric decorator: conversion then DDP sync. -/
def tensor_collection_metric_fn (env : DistEnv) (g : Option GroupH) (op : Option ROp)
    (f : PyList → PyDict → PyVal) :=
  sync_ddp_fn env g op (tensor_collection_metric_conversion_fn f)

mutual
/-- Map a function over exactly the tensor leaves of a value, leaving every
other leaf untouched and rebuilding containers; the intended effect of the
sync_ddp output stage. -/
def mapTensorLeaves (g : PyVal → PyVal) : PyVal → PyVal
  | .tensor buf d dev => g (.tensor buf d dev)
  | .listV xs => .listV (mapTensorLeavesL g xs)
  | .tupleV xs => .tupleV (mapTensorLeavesL g xs)
  | .setV xs => .setV (mapTensorLeavesL g xs)
  | .dictV kvs => .dictV (mapTensorLeavesD g kvs)
  | v => v
/-- mapTensorLeaves over a sequence. -/
def mapTensorLeavesL (g : PyVal → PyVal) : PyList → PyList
  | .nil => .nil
  | .cons x xs => .cons (mapTensorLeaves g x) (mapTensorLeavesL g xs)
/-- mapTensorLeaves over the values of a mapping. -/
def mapTensorLeavesD (g : PyVal → PyVal) : PyDict → PyDict
  | .nil => .nil
  | .cons k v rest => .cons k (mapTensorLeaves g v) (mapTensorLeavesD g rest)
end

mutual
/-- Shape skeleton of a value: every convertible leaf collapses to noneV
while containers, their arity, order and keys are kept; two values with the
same skeleton have the same container structure. -/
def shapeOf : PyVal → PyVal
  | .scalar _ => .noneV
  | .array _ _ => .noneV
  | .tensor _ _ _ => .noneV
  | .strV s => .strV s
  | .noneV => .noneV
  | .listV xs => .listV (shapeOfL xs)
  | .tupleV xs => .tupleV (shapeOfL xs)
  | .setV xs => .setV (shapeOfL xs)
  | .dictV kvs => .dictV (shapeOfD kvs)
/-- Shape skeleton of a sequence. -/
def shapeOfL : PyList → PyList
  | .nil => .nil
  | .cons x xs => .cons (shapeOf x) (shapeOfL xs)
/-- Shape skeleton of a mapping (keys kept). -/
def shapeOfD : PyDict → PyDict
  | .nil => .nil
  | .cons k v rest => .cons k (shapeOf v) (shapeOfD rest)
end

/-- Numeric contents of a leaf value, for elementwise comparison. -/
def elemsOf : PyVal → Option (List ℚ)
  | .scalar q => some [q]
  | .array buf _ => some buf
  | .tensor buf _ _ => some buf
  | _ => none

/-! Helper lemmas (shared). -/

/-- Length of an elementwise sum of two buffers. -/
theorem addT_length (a b : Tensor) : (addT a b).length = min a.length b.length := by
  simp [addT]

/-- Entry of an elementwise sum of two buffers. -/
theorem addT_getD (a : Tensor) : ∀ (b : Tensor) (j : Nat), j < a.length → j < b.length →
    (addT a b).getD j 0 = a.getD j 0 + b.getD j 0 := by
  induction a with
  | nil => intro b j ha; simp at ha
  | cons x a ih =>
    intro b j ha hb
    cases b with
    | nil => simp at hb
    | cons y b =>
      cases j with
      | zero => simp [addT]
      | succ j =>
        have := ih b j (by simpa using ha) (by simpa using hb)
        simpa [addT, List.getD_cons_succ] using this

/-- Entries of a left fold of elementwise additions over equal-shape buffers. -/
theorem foldl_addT_getD (ts : List Tensor) (n : Nat) :
    ∀ acc : Tensor, acc.length = n → (∀ t ∈ ts, t.length = n) →
      (ts.foldl addT acc).length = n ∧
      ∀ j, j < n → (ts.foldl addT acc).getD j 0
        = acc.getD j 0 + (ts.map (fun t => t.getD j 0)).sum := by
  induction ts with
  | nil => intro acc hacc _; simp [hacc]
  | cons t ts ih =>
    intro acc hacc hts
    have htn : t.length = n := hts t (by simp)
    have hlen : (addT acc t).length = n := by
      simp [addT_length, hacc, htn]
    obtain ⟨h1, h2⟩ := ih (addT acc t) hlen (fun u hu => hts u (by simp [hu]))
    refine ⟨by simpa using h1, fun j hj => ?_⟩
    have hstep : (addT acc t).getD j 0 = acc.getD j 0 + t.getD j 0 :=
      addT_getD acc t j (by omega) (by omega)
    calc ((t :: ts).foldl addT acc).getD j 0
        = (ts.foldl addT (addT acc t)).getD j 0 := by simp
      _ = (addT acc t).getD j 0 + (ts.map (fun u => u.getD j 0)).sum := h2 j hj
      _ = acc.getD j 0 + ((t :: ts).map (fun u => u.getD j 0)).sum := by
          rw [hstep]; simp; ring

/-- Entry j of sumT is the sum over the peers of their entry j. -/
theorem sumT_getD (contribs : List Tensor) (n : Nat)
    (hlen : ∀ t ∈ contribs, t.length = n) (hne : contribs ≠ []) (j : Nat) (hj : j < n) :
    (sumT contribs).getD j 0 = (contribs.map (fun t => t.getD j 0)).sum := by
  cases contribs with
  | nil => exact absurd rfl hne
  | cons t ts =>
    obtain ⟨-, h2⟩ := foldl_addT_getD ts n t (hlen t (by simp)) (fun u hu => hlen u (by simp [hu]))
    simpa [sumT] using h2 j hj

/-- applyToDict never touches keys: on success the key list is unchanged. -/
theorem applyToDict_keys (ks : List Kind) (f : PyVal → Except ConvErr PyVal) (kvs : PyDict) :
    ∀ kvs2, applyToDict ks f kvs = .ok kvs2 → keysOf kvs2 = keysOf kvs := by
  cases kvs with
  | nil =>
    intro kvs2 h
    simp [applyToDict] at h
    simp [← h]
  | cons k v rest =>
    intro kvs2 h
    simp only [applyToDict] at h
    cases hv : apply_to_collection ks f v with
    | error e => rw [hv] at h; simp at h
    | ok w =>
      cases hr : applyToDict ks f rest with
      | error e => rw [hv, hr] at h; simp at h
      | ok rest2 =>
        rw [hv, hr] at h
        simp at h
        simp [← h, keysOf, applyToDict_keys ks f rest rest2 hr]

/-- applyToList preserves the arity of the sequence on success. -/
theorem applyToList_length (ks : List Kind) (f : PyVal → Except ConvErr PyVal) (xs : PyList) :
    ∀ ys, applyToList ks f xs = .ok ys → plen ys = plen xs := by
  cases xs with
  | nil =>
    intro ys h
    simp [applyToList] at h
    simp [← h]
  | cons x xs =>
    intro ys h
    simp only [applyToList] at h
    cases hx : apply_to_collection ks f x with
    | error e => rw [hx] at h; simp at h
    | ok y =>
      cases hr : applyToList ks f xs with
      | error e => rw [hx, hr] at h; simp at h
      | ok ys2 =>
        rw [hx, hr] at h
        simp at h
        simp [← h, plen, applyToList_length ks f xs ys2 hr]

/-- convert_to_tensor rejects every container value. -/
theorem convert_to_tensor_container (v : PyVal) (hv : v.kind ∈ containerKinds)
    (dtype device : Option Nat) :
    convert_to_tensor v dtype device = .error .unsupportedConversion := by
  cases v <;> first
    | rfl
    | simp [PyVal.kind, containerKinds] at hv

mutual
/-- apply_to_collection with leaf set {tensor} and a total leaf function is
exactly mapTensorLeaves. -/
theorem atc_tensorOnly (g : PyVal → PyVal) (v : PyVal) :
    apply_to_collection [Kind.tensorK] (fun t => .ok (g t)) v
      = .ok (mapTensorLeaves g v) := by
  cases v with
  | listV xs => simp [apply_to_collection, mapTensorLeaves, atcList_tensorOnly g xs]
  | tupleV xs => simp [apply_to_collection, mapTensorLeaves, atcList_tensorOnly g xs]
  | setV xs => simp [apply_to_collection, mapTensorLeaves, atcList_tensorOnly g xs]
  | dictV kvs => simp [apply_to_collection, mapTensorLeaves, atcDict_tensorOnly g kvs]
  | tensor buf d dev => simp [apply_to_collection, PyVal.kind, mapTensorLeaves]
  | scalar q => simp [apply_to_collection, PyVal.kind, mapTensorLeaves]
  | array buf o => simp [apply_to_collection, PyVal.kind, mapTensorLeaves]
  | strV s => simp [apply_to_collection, PyVal.kind, mapTensorLeaves]
  | noneV => simp [apply_to_collection, PyVal.kind, mapTensorLeaves]
/-- List part of atc_tensorOnly. -/
theorem atcList_tensorOnly (g : PyVal → PyVal) (xs : PyList) :
    applyToList [Kind.tensorK] (fun t => .ok (g t)) xs = .ok (mapTensorLeavesL g xs) := by
  cases xs with
  | nil => rfl
  | cons x xs =>
    simp [applyToList, mapTensorLeavesL, atc_tensorOnly g x, atcList_tensorOnly g xs]
/-- Dict part of atc_tensorOnly. -/
theorem atcDict_tensorOnly (g : PyVal → PyVal) (kvs : PyDict) :
    applyToDict [Kind.tensorK] (fun t => .ok (g t)) kvs = .ok (mapTensorLeavesD g kvs) := by
  cases kvs with
  | nil => rfl
  | cons k v rest =>
    simp [applyToDict, mapTensorLeavesD, atc_tensorOnly g v, atcDict_tensorOnly g rest]
end

mutual
/-- The collection traversal with convert_to_tensor preserves the shape
skeleton of the value it converts. -/
theorem atc_conv_shape (v : PyVal) :
    ∀ w, apply_to_collection leafTypes convTensorDefault v = .ok w →
      shapeOf w = shapeOf v := by
  cases v with
  | scalar q =>
    intro w h
    simp [apply_to_collection, PyVal.kind, leafTypes, convTensorDefault,
      convert_to_tensor] at h
    simp [← h, shapeOf]
  | array buf o =>
    intro w h
    cases o with
    | false =>
      simp [apply_to_collection, PyVal.kind, leafTypes, convTensorDefault,
        convert_to_tensor] at h
      simp [← h, shapeOf]
    | true =>
      simp [apply_to_collection, PyVal.kind, leafTypes, convTensorDefault,
        convert_to_tensor] at h
  | tensor buf d dev =>
    intro w h
    simp [apply_to_collection, PyVal.kind, leafTypes, convTensorDefault,
      convert_to_tensor] at h
    simp [← h, shapeOf]
  | strV s =>
    intro w h
    simp [apply_to_collection, PyVal.kind, leafTypes] at h
    simp [← h]
  | noneV =>
    intro w h
    simp [apply_to_collection, PyVal.kind, leafTypes] at h
    simp [← h]
  | listV xs =>
    intro w h
    simp only [apply_to_collection] at h
    rw [if_neg (by decide)] at h
    cases hx : applyToList leafTypes convTensorDefault xs with
    | error e => rw [hx] at h; simp at h
    | ok ys =>
      rw [hx] at h
      simp at h
      simp [← h, shapeOf, atcList_conv_shape xs ys hx]
  | tupleV xs =>
    intro w h
    simp only [apply_to_collection] at h
    rw [if_neg (by decide)] at h
    cases hx : applyToList leafTypes convTensorDefault xs with
    | error e => rw [hx] at h; simp at h
    | ok ys =>
      rw [hx] at h
      simp at h
      simp [← h, shapeOf, atcList_conv_shape xs ys hx]
  | setV xs =>
    intro w h
    simp only [apply_to_collection] at h
    rw [if_neg (by decide)] at h
    cases hx : applyToList leafTypes convTensorDefault xs with
    | error e => rw [hx] at h; simp at h
    | ok ys =>
      rw [hx] at h
      simp at h
      simp [← h, shapeOf, atcList_conv_shape xs ys hx]
  | dictV kvs =>
    intro w h
    simp only [apply_to_collection] at h
    rw [if_neg (by decide)] at h
    cases hx : applyToDict leafTypes convTensorDefault kvs with
    | error e => rw [hx] at h; simp at h
    | ok kvs2 =>
      rw [hx] at h
      simp at h
      simp [← h, shapeOf, atcDict_conv_shape kvs kvs2 hx]
/-- List part of atc_conv_shape. -/
theorem atcList_conv_shape (xs : PyList) :
    ∀ ys, applyToList leafTypes convTensorDefault xs = .ok ys →
      shapeOfL ys = shapeOfL xs := by
  cases xs with
  | nil =>
    intro ys h
    simp [applyToList] at h
    simp [← h]
  | cons x xs =>
    intro ys h
    simp only [applyToList] at h
    cases hx : apply_to_collection leafTypes convTensorDefault x with
    | error e => rw [hx] at h; simp at h
    | ok y =>
      cases hr : applyToList leafTypes convTensorDefault xs with
      | error e => rw [hx, hr] at h; simp at h
      | ok ys2 =>
        rw [hx, hr] at h
        simp at h
        simp [← h, shapeOfL, atc_conv_shape x y hx, atcList_conv_shape xs ys2 hr]
/-- Dict part of atc_conv_shape. -/
theorem atcDict_conv_shape (kvs : PyDict) :
    ∀ kvs2, applyToDict leafTypes convTensorDefault kvs = .ok kvs2 →
      shapeOfD kvs2 = shapeOfD kvs := by
  cases kvs with
  | nil =>
    intro kvs2 h
    simp [applyToDict] at h
    simp [← h]
  | cons k v rest =>
    intro kvs2 h
    simp only [applyToDict] at h
    cases hv : apply_to_collection leafTypes convTensorDefault v with
    | error e => rw [hv] at h; simp at h
    | ok w =>
      cases hr : applyToDict leafTypes convTensorDefault rest with
      | error e => rw [hv, hr] at h; simp at h
      | ok rest2 =>
        rw [hv, hr] at h
        simp at h
        simp [← h, shapeOfD, atc_conv_shape v w hv, atcDict_conv_shape rest rest2 hr]
end

/-! Claim theorems. -/

/-- Claim C1 (counterexample): the claim says all three pipelines apply the
collection traversal at the output stage; but a tensor_metric- or
numpy_metric-adapted function returning the list [1] raises
UnsupportedConversion, while the claimed traversal of that same value
succeeds with the container preserved and the leaf converted. -/
theorem tensor_metric_direct_output_counterexample :
    tensor_metric_conversion_fn (fun _ _ => .listV (.cons (.scalar 1) .nil)) .nil .nil
      = .error .unsupportedConversion ∧
    numpy_metric_conversion_fn (fun _ _ => .listV (.cons (.scalar 1) .nil)) .nil .nil
      = .error .unsupportedConversion ∧
    apply_to_collection leafTypes convTensorDefault (.listV (.cons (.scalar 1) .nil))
      = .ok (.listV (.cons (.tensor [1] none none) .nil)) :=
  ⟨rfl, rfl, rfl⟩

/-- Claim C1 (amended): only the tensor-collection pipeline applies the
collection traversal at the output stage; the array-space and plain
tensor-space pipelines apply convert_to_tensor directly to the entire
return value.  On a leaf the traversal agrees with convert_to_tensor, and
when the traversal succeeds it preserves the container structure (shape
skeleton, hence kinds, arity, order and keys). -/
theorem output_stage_amended (gfun : PyList → PyDict → Except ConvErr PyVal)
    (args : PyList) (kwargs : PyDict) (r : PyVal) (h : gfun args kwargs = .ok r) :
    tensor_metric_output_conversion_fn gfun args kwargs = convert_to_tensor r none none ∧
    tensor_collection_metric_output_conversion_fn gfun args kwargs
      = apply_to_collection leafTypes convTensorDefault r ∧
    (∀ x : PyVal, x.kind ∈ leafTypes →
      apply_to_collection leafTypes convTensorDefault x = convert_to_tensor x none none) ∧
    (∀ w, apply_to_collection leafTypes convTensorDefault r = .ok w →
      shapeOf w = shapeOf r) := by
  refine ⟨?_, ?_, ?_, atc_conv_shape r⟩
  · simp [tensor_metric_output_conversion_fn, apply_to_outputs_fn, h, convTensorDefault]
  · simp [tensor_collection_metric_output_conversion_fn, apply_to_outputs_fn, h]
  · intro x hx
    cases x with
    | scalar q => rfl
    | array buf o => rfl
    | tensor buf d dev => rfl
    | strV s => simp [PyVal.kind, leafTypes] at hx
    | noneV => simp [PyVal.kind, leafTypes] at hx
    | listV xs => simp [PyVal.kind, leafTypes] at hx
    | tupleV xs => simp [PyVal.kind, leafTypes] at hx
    | setV xs => simp [PyVal.kind, leafTypes] at hx
    | dictV kvs => simp [PyVal.kind, leafTypes] at hx

/-- Claim C1 (witness for the amended theorem) at a one-entry mapping. -/
theorem output_stage_amended_witness :
    tensor_collection_metric_output_conversion_fn
        (fun _ _ => .ok (.dictV (.cons "a" (.scalar 2) .nil))) .nil .nil
      = apply_to_collection leafTypes convTensorDefault
          (.dictV (.cons "a" (.scalar 2) .nil)) :=
  (output_stage_amended (fun _ _ => .ok (.dictV (.cons "a" (.scalar 2) .nil))) .nil .nil
    (.dictV (.cons "a" (.scalar 2) .nil)) rfl).2.1

/-- Claim C2 (counterexample): the claim says the Inactive state, decided at
the first use, is permanent with no re-probing; but in a two-call trace
whose first call probes Inactive (available = initialized = false), a later
call made when the runtime probes Active reduces its input ([[2],[4]] with
op avg becomes [[3],[3]] ≠ [[2],[4]]), because the code re-probes on every
call. -/
theorem sync_reprobe_counterexample :
    ddp_probe false false = false ∧
    syncTrace [⟨false, false, [[1]], none, none⟩, ⟨true, true, [[2], [4]], none, some .avg⟩]
      = [[[1]], [[3], [3]]] ∧
    ([[3], [3]] : List Tensor) ≠ [[2], [4]] := by
  refine ⟨rfl, ?_, ?_⟩
  · simp [syncTrace, sync_ddp_group, sync_ddp_if_available, groupEnv, sumT, addT]
    norm_num
  · intro h
    simp at h

/-- Claim C2 (amended): sync_ddp_if_available and
gather_all_tensors_if_available keep no state between calls: each call of a
trace re-probes availability/initialization itself, its result depends only
on that call's own probe and arguments, and any call whose own probe is
false is a passthrough — regardless of what earlier probes returned. -/
theorem sync_stateless_reprobe (calls : List SyncCall) (i : Nat) :
    (syncTrace calls)[i]?
      = (calls[i]?).map (fun c => sync_ddp_group c.avail c.inited c.contribs c.group c.op) ∧
    (∀ c ∈ calls, ddp_probe c.avail c.inited = false →
      sync_ddp_group c.avail c.inited c.contribs c.group c.op = c.contribs) ∧
    (∀ (env : DistEnv) (t : Tensor) (gr : Option GroupH),
      ddp_probe env.available env.inited = false →
      gather_all_tensors_if_available env t gr = .single t) := by
  refine ⟨?_, ?_, ?_⟩
  · simp [syncTrace, List.getElem?_map]
  · intro c _ hc
    simp only [ddp_probe] at hc
    simp [sync_ddp_group, sync_ddp_if_available, groupEnv, hc]
  · intro env t gr hc
    simp only [ddp_probe] at hc
    simp [gather_all_tensors_if_available, hc]

/-- Claim C2 (witness for the amended theorem): a call probing false is a
passthrough. -/
theorem sync_stateless_reprobe_witness :
    sync_ddp_group false false [[5]] none none = [[5]] :=
  (sync_stateless_reprobe [⟨false, false, [[5]], none, none⟩] 0).2.1
    ⟨false, false, [[5]], none, none⟩ (by simp) rfl

/-- Claim C3: in the Active state, for a group of N peers where peer i
contributes tensor contribs[i], reduce with op omitted or SUM returns the
elementwise sum identically on every peer (no division); with op avg or
mean it returns the sum divided elementwise by the group size, identically
on every peer; entry j of the sum is the arithmetic sum of the peers'
entries j; and an omitted group argument is replaced by the WORLD group. -/
theorem active_reduce_correct (contribs : List Tensor) (g : Option GroupH) (n : Nat)
    (hlen : ∀ t ∈ contribs, t.length = n) (hne : contribs ≠ []) :
    sync_ddp_group true true contribs g none = contribs.map (fun _ => sumT contribs) ∧
    sync_ddp_group true true contribs g (some .SUM)
      = contribs.map (fun _ => sumT contribs) ∧
    sync_ddp_group true true contribs g (some .avg)
      = contribs.map (fun _ => (sumT contribs).map (fun q => q / ((contribs.length : ℚ)))) ∧
    sync_ddp_group true true contribs g (some .mean)
      = contribs.map (fun _ => (sumT contribs).map (fun q => q / ((contribs.length : ℚ)))) ∧
    (∀ j, j < n → (sumT contribs).getD j 0 = (contribs.map (fun t => t.getD j 0)).sum) ∧
    (∀ (env : DistEnv) (t : Tensor) (op : Option ROp),
      sync_ddp_if_available env t none op = sync_ddp_if_available env t (some env.world) op) := by
  refine ⟨?_, ?_, ?_, ?_, fun j hj => sumT_getD contribs n hlen hne j hj, ?_⟩
  · simp [sync_ddp_group, sync_ddp_if_available, groupEnv]
  · simp [sync_ddp_group, sync_ddp_if_available, groupEnv]
  · simp [sync_ddp_group, sync_ddp_if_available, groupEnv]
  · simp [sync_ddp_group, sync_ddp_if_available, groupEnv]
  · intro env t op
    simp [sync_ddp_if_available]

/-- Claim C3 (witness) at the two-peer group contributing [2] and [4]. -/
theorem active_reduce_correct_witness :
    sync_ddp_group true true [[2], [4]] none none
      = ([[2], [4]] : List Tensor).map (fun _ => sumT [[2], [4]]) :=
  (active_reduce_correct [[2], [4]] none 1 (by decide) (by decide)).1

/-- Claim C4: when the probe of the communication runtime fails (not
available or not initialized), sync_ddp_if_available and
gather_all_tensors_if_available return their input unchanged, whatever
group and op arguments are passed, with no division by a group size. -/
theorem inactive_passthrough (env : DistEnv)
    (h : (env.available && env.inited) = false)
    (t : Tensor) (g : Option GroupH) (op : Option ROp) :
    sync_ddp_if_available env t g op = t ∧
    gather_all_tensors_if_available env t g = .single t := by
  constructor
  · simp [sync_ddp_if_available, h]
  · simp [gather_all_tensors_if_available, h]

/-- Claim C4 (witness): inactive passthrough at a non-default group and the
avg op (which would divide in the Active state). -/
theorem inactive_passthrough_witness :
    sync_ddp_if_available (groupEnv false true [[1], [2]]) [7] (some 3) (some .avg) = [7] ∧
    gather_all_tensors_if_available (groupEnv false true [[1], [2]]) [7] (some 3)
      = .single [7] :=
  inactive_passthrough (groupEnv false true [[1], [2]]) rfl [7] (some 3) (some .avg)

/-- Claim C5: convert_to_tensor maps a number to a one-element tensor, a
non-object-dtype ndarray to a tensor from its buffer cast to the given
dtype/device, a tensor to itself re-cast (the identity when dtype and
device are unspecified), and everything else — object-dtype ndarrays
included — to the UnsupportedConversion error. -/
theorem convert_to_tensor_cases (dtype device : Option Nat) :
    (∀ q : ℚ, convert_to_tensor (.scalar q) dtype device = .ok (.tensor [q] dtype device)) ∧
    (∀ buf : List ℚ, convert_to_tensor (.array buf false) dtype device
      = .ok (.tensor buf dtype device)) ∧
    (∀ buf d dev, convert_to_tensor (.tensor buf d dev) dtype device
      = .ok (.tensor buf (castMeta dtype d) (castMeta device dev))) ∧
    (∀ buf d dev, convert_to_tensor (.tensor buf d dev) none none
      = .ok (.tensor buf d dev)) ∧
    (∀ buf, convert_to_tensor (.array buf true) dtype device
      = .error .unsupportedConversion) ∧
    (∀ v : PyVal, v.kind ∉ leafTypes →
      convert_to_tensor v dtype device = .error .unsupportedConversion) := by
  refine ⟨fun q => rfl, fun buf => rfl, fun buf d dev => rfl, fun buf d dev => rfl,
    fun buf => rfl, ?_⟩
  intro v hv
  cases v with
  | scalar q => simp [PyVal.kind, leafTypes] at hv
  | array buf o => simp [PyVal.kind, leafTypes] at hv
  | tensor buf d dev => simp [PyVal.kind, leafTypes] at hv
  | strV s => rfl
  | noneV => rfl
  | listV xs => rfl
  | tupleV xs => rfl
  | setV xs => rfl
  | dictV kvs => rfl

/-- Claim C5 (witness): a string input is rejected at concrete dtype/device
arguments. -/
theorem convert_to_tensor_cases_witness :
    convert_to_tensor (.strV "x") (some 5) none = .error .unsupportedConversion :=
  (convert_to_tensor_cases (some 5) none).2.2.2.2.2 (.strV "x") (by decide)

/-- Claim C6: for a number, a tensor, or a non-object-dtype ndarray x,
convert_to_tensor (convert_to_numpy x) with dtype and device unspecified
succeeds and its result is elementwise numerically equal to x. -/
theorem numpy_tensor_round_trip (x : PyVal)
    (h : (∃ q, x = .scalar q) ∨ (∃ buf d dev, x = .tensor buf d dev) ∨
      (∃ buf, x = .array buf false)) :
    ∃ a t, convert_to_numpy x = .ok a ∧ convert_to_tensor a none none = .ok t ∧
      elemsOf t = elemsOf x := by
  rcases h with ⟨q, rfl⟩ | ⟨buf, d, dev, rfl⟩ | ⟨buf, rfl⟩
  · exact ⟨_, _, rfl, rfl, rfl⟩
  · exact ⟨_, _, rfl, rfl, rfl⟩
  · exact ⟨_, _, rfl, rfl, rfl⟩

/-- Claim C6 (witness) at a two-element tensor with explicit dtype and
device metadata. -/
theorem numpy_tensor_round_trip_witness :
    ∃ a t, convert_to_numpy (.tensor [1, 2] (some 3) (some 4)) = .ok a ∧
      convert_to_tensor a none none = .ok t ∧
      elemsOf t = elemsOf (.tensor [1, 2] (some 3) (some 4)) :=
  numpy_tensor_round_trip (.tensor [1, 2] (some 3) (some 4))
    (.inr (.inl ⟨[1, 2], some 3, some 4, rfl⟩))

/-- Claim C7: the input stage converts the positional-argument tuple and the
keyword-argument dict in two separate traversals; the positional traversal
is elementwise in order with arity preserved, and the keyword traversal
converts only values, never keys. -/
theorem input_stage_separate (conv : PyVal → Except ConvErr PyVal)
    (f : PyList → PyDict → PyVal) (args : PyList) (kwargs : PyDict) :
    apply_to_inputs_fn (apply_to_collection leafTypes conv) f args kwargs
      = (match applyToList leafTypes conv args, applyToDict leafTypes conv kwargs with
         | .ok a, .ok k => .ok (f a k)
         | .error e, _ => .error e
         | _, .error e => .error e) ∧
    (∀ k2, applyToDict leafTypes conv kwargs = .ok k2 → keysOf k2 = keysOf kwargs) ∧
    (∀ a2, applyToList leafTypes conv args = .ok a2 → plen a2 = plen args) := by
  refine ⟨?_, applyToDict_keys leafTypes conv kwargs, applyToList_length leafTypes conv args⟩
  cases ha : applyToList leafTypes conv args with
  | error e =>
    simp only [apply_to_inputs_fn, apply_to_collection]
    rw [if_neg (by decide), if_neg (by decide), ha]
    cases hk : applyToDict leafTypes conv kwargs <;> simp
  | ok a =>
    simp only [apply_to_inputs_fn, apply_to_collection]
    rw [if_neg (by decide), if_neg (by decide), ha]
    cases hk : applyToDict leafTypes conv kwargs <;> simp

/-- Claim C7 (witness): keyword keys survive a concrete converted call. -/
theorem input_stage_separate_witness :
    keysOf (.cons "b" (.tensor [2] none none) .nil) = keysOf (.cons "b" (.scalar 2) .nil) :=
  (input_stage_separate convTensorDefault (fun _ _ => .noneV) .nil
    (.cons "b" (.scalar 2) .nil)).2.1 (.cons "b" (.tensor [2] none none) .nil) rfl

/-- Claim C8: the sync_ddp output stage is exactly the map over tensor
leaves by the per-leaf reduction: it rebuilds containers and applies
sync_ddp_if_available to tensor leaves only, and every non-tensor,
non-container value is left unchanged by that map. -/
theorem sync_outputs_tensor_frame (env : DistEnv) (g : Option GroupH) (op : Option ROp)
    (h : PyList → PyDict → Except ConvErr PyVal) (args : PyList) (kwargs : PyDict)
    (r : PyVal) (hr : h args kwargs = .ok r) :
    sync_ddp_fn env g op h args kwargs = .ok (mapTensorLeaves (sync_leaf env g op) r) ∧
    (∀ v : PyVal, v.kind ≠ Kind.tensorK → v.kind ∉ containerKinds →
      mapTensorLeaves (sync_leaf env g op) v = v) := by
  constructor
  · simp [sync_ddp_fn, apply_to_outputs_fn, hr, atc_tensorOnly]
  · intro v h1 h2
    cases v with
    | tensor buf d dev => simp [PyVal.kind] at h1
    | listV xs => simp [PyVal.kind, containerKinds] at h2
    | tupleV xs => simp [PyVal.kind, containerKinds] at h2
    | setV xs => simp [PyVal.kind, containerKinds] at h2
    | dictV kvs => simp [PyVal.kind, containerKinds] at h2
    | scalar q => rfl
    | array buf o => rfl
    | strV s => rfl
    | noneV => rfl

/-- Claim C8 (witness): the sync stage on a tuple of a scalar and a tensor
equals the tensor-leaf map of that tuple. -/
theorem sync_outputs_tensor_frame_witness :
    sync_ddp_fn (groupEnv false false []) none none
        (fun _ _ => .ok (.tupleV (.cons (.scalar 3) (.cons (.tensor [4] none none) .nil))))
        .nil .nil
      = .ok (mapTensorLeaves (sync_leaf (groupEnv false false []) none none)
          (.tupleV (.cons (.scalar 3) (.cons (.tensor [4] none none) .nil)))) :=
  (sync_outputs_tensor_frame (groupEnv false false []) none none
    (fun _ _ => .ok (.tupleV (.cons (.scalar 3) (.cons (.tensor [4] none none) .nil))))
    .nil .nil
    (.tupleV (.cons (.scalar 3) (.cons (.tensor [4] none none) .nil))) rfl).1

/-- Claim C9: convert_to_numpy returns any ndarray argument unchanged, the
object-dtype flag included; only convert_to_tensor rejects object dtypes. -/
theorem convert_to_numpy_array_identity (buf : List ℚ) (objDtype : Bool) :
    convert_to_numpy (.array buf objDtype) = .ok (.array buf objDtype) ∧
    convert_to_tensor (.array buf true) none none = .error .unsupportedConversion :=
  ⟨rfl, rfl⟩

/-- Claim C10: when the underlying function returns a container, the
numpy_metric- and tensor_metric-adapted calls raise UnsupportedConversion at
the output stage (convert_to_tensor applied to the whole container);
a tensor_collection_metric-adapted function can return a mapping of named
scalar metrics successfully, with keys kept and leaves converted. -/
theorem container_output_raises (env : DistEnv) (g : Option GroupH) (op : Option ROp)
    (f : PyList → PyDict → PyVal) (args : PyList) (kwargs : PyDict)
    (a1 : PyList) (k1 : PyDict) (a2 : PyList) (k2 : PyDict)
    (hna : applyToList leafTypes convert_to_numpy args = .ok a1)
    (hnk : applyToDict leafTypes convert_to_numpy kwargs = .ok k1)
    (hta : applyToList leafTypes convTensorDefault args = .ok a2)
    (htk : applyToDict leafTypes convTensorDefault kwargs = .ok k2)
    (hc1 : (f a1 k1).kind ∈ containerKinds)
    (hc2 : (f a2 k2).kind ∈ containerKinds) :
    numpy_metric_fn env g op f args kwargs = .error .unsupportedConversion ∧
    tensor_metric_fn env g op f args kwargs = .error .unsupportedConversion ∧
    tensor_collection_metric_fn (groupEnv false false []) none none
        (fun _ _ => .dictV (.cons "precision" (.scalar (4/5))
          (.cons "recall" (.scalar (3/5)) .nil))) .nil .nil
      = .ok (.dictV (.cons "precision" (.tensor [4/5] none none)
          (.cons "recall" (.tensor [3/5] none none) .nil))) := by
  have hconv1 : convTensorDefault (f a1 k1) = .error .unsupportedConversion :=
    convert_to_tensor_container (f a1 k1) hc1 none none
  have hconv2 : convTensorDefault (f a2 k2) = .error .unsupportedConversion :=
    convert_to_tensor_container (f a2 k2) hc2 none none
  have hin1 : apply_to_inputs_fn (apply_to_collection leafTypes convert_to_numpy) f args kwargs
      = .ok (f a1 k1) := by
    simp only [apply_to_inputs_fn, apply_to_collection]
    rw [if_neg (show Kind.tupleK ∉ leafTypes by decide),
      if_neg (show Kind.dictK ∉ leafTypes by decide), hna, hnk]
  have hin2 : apply_to_inputs_fn (apply_to_collection leafTypes convTensorDefault) f args kwargs
      = .ok (f a2 k2) := by
    simp only [apply_to_inputs_fn, apply_to_collection]
    rw [if_neg (show Kind.tupleK ∉ leafTypes by decide),
      if_neg (show Kind.dictK ∉ leafTypes by decide), hta, htk]
  refine ⟨?_, ?_, rfl⟩
  · simp [numpy_metric_fn, sync_ddp_fn, apply_to_outputs_fn, numpy_metric_conversion_fn,
      tensor_metric_output_conversion_fn, numpy_metric_input_conversion_fn, hin1, hconv1]
  · simp [tensor_metric_fn, sync_ddp_fn, apply_to_outputs_fn, tensor_metric_conversion_fn,
      tensor_metric_output_conversion_fn, tensor_metric_input_conversion_fn, hin2, hconv2]

/-- Claim C10 (witness): a function returning a one-entry mapping makes the
numpy_metric-adapted call fail with UnsupportedConversion. -/
theorem container_output_raises_witness :
    numpy_metric_fn (groupEnv true true [[1]]) none none
        (fun _ _ => .dictV (.cons "x" (.scalar 1) .nil)) .nil .nil
      = .error .unsupportedConversion :=
  (container_output_raises (groupEnv true true [[1]]) none none
    (fun _ _ => .dictV (.cons "x" (.scalar 1) .nil)) .nil .nil
    .nil .nil .nil .nil rfl rfl rfl rfl (by decide) (by decide)).1
